import Mathlib

/-!
# Verification of the immaterium block-terminal core

Shallow embedding of the repository's core types and operations:

* `src/core/block.rs` — `Block`, `BlockState`, `BlockMetadata` and the
  lifecycle operations (`start_execution`, `complete_execution`,
  `append_output`, `get_display_command`, …).
* `src/core/manager.rs` — `BlockManager` and its by-ID operations.
* `src/core/session_manager.rs` — the persistence layer (`save_block`,
  `load_blocks`) over an embedded relational row model.
* `src/shell/process.rs` — `ProcessHandle` and its `cancel`.
* `src/shell/executor.rs` — the PTY read loop and event stream of
  `ShellExecutor::execute`, modelled as a pure function from read outcomes
  to the list of emitted `OutputLine` events.
* `src/ui/app.rs` — the auto-save flag machine (`save_needed`,
  `last_save`, `auto_save`).

Modelling conventions:
* Machine integers (`i32`, `i64`) are `Int`; wraparound is written out
  explicitly (`% 2 ^ 64`) exactly where the Rust code performs an `as` cast.
* `chrono` timestamps are `Int` epoch milliseconds; `std::time::Duration`
  values are integer milliseconds.
* `Uuid` values are `Nat`.
* Strings produced by external codecs (uuid/rfc3339 printing, serde_json)
  are modelled by the abstract codec `Coded`: `Coded.enc v` is the canonical
  well-formed encoding of `v`, `Coded.bad s` is a string that the
  corresponding parser rejects.  The codecs in question are injective with a
  partial inverse, which is all the repository relies on.
* Fallible Rust code (`Result`, the `?` operator) becomes `Except String`.
-/

namespace Immaterium

/-- Rust `BlockState` from `src/core/block.rs` lines 21–28.  The enum in that file
has exactly these five variants.  (Other files of the repository —
`src/ui/block_widget.rs:18`, `src/ai/context.rs:133`, `src/ui/app.rs:695` —
additionally reference a `PendingApproval` variant and a
`Block::new_pending_approval` constructor that this file does not define.) -/
inductive BlockState where
  | Editing
  | Running
  | Completed
  | Failed
  | Cancelled
deriving DecidableEq, Repr

/-- Rust `BlockMetadata` from `src/core/block.rs` lines 30–37.
`duration` is in integer milliseconds, timestamps in epoch milliseconds. -/
structure BlockMetadata where
  duration : Option Int
  working_directory : String
  environment : List (String × String)
  started_at : Option Int
  completed_at : Option Int
deriving DecidableEq, Repr

/-- Rust `Block` from `src/core/block.rs` lines 8–19.  The struct in that file has
exactly these fields (no `original_input`, although `src/ui/app.rs:924` and
`src/core/session_manager.rs:193` reference one). -/
structure Block where
  id : Nat
  timestamp : Int
  command : String
  output : String
  exit_code : Option Int
  state : BlockState
  metadata : BlockMetadata
  is_collapsed : Bool
  is_selected : Bool
deriving DecidableEq, Repr

namespace Block

/-- Rust `Block::new` (`src/core/block.rs:40-58`).  `Uuid::new_v4()` and
`Utc::now()` are ambient effects, passed here as the arguments `id`/`now`. -/
def new (command : String) (working_directory : String) (id : Nat) (now : Int) : Block :=
  { id := id
    timestamp := now
    command := command
    output := ""
    exit_code := none
    state := BlockState.Editing
    metadata :=
      { duration := none
        working_directory := working_directory
        environment := []
        started_at := none
        completed_at := none }
    is_collapsed := false
    is_selected := false }

/-- Rust `Block::start_execution` (`src/core/block.rs:60-63`). -/
def start_execution (b : Block) (now : Int) : Block :=
  { b with
    state := BlockState.Running
    metadata := { b.metadata with started_at := some now } }

/-- Rust `Block::complete_execution` (`src/core/block.rs:65-81`).  `completed_at`
is `Utc::now()`, passed as `now`.  The duration is stored only when
`(end - start).to_std()` succeeds, i.e. when the chrono difference is not
negative. -/
def complete_execution (b : Block) (exit_code : Int) (now : Int) : Block :=
  let md := { b.metadata with completed_at := some now }
  let st := if exit_code = 0 then BlockState.Completed else BlockState.Failed
  let md :=
    match md.started_at, md.completed_at with
    | some s, some e => if 0 ≤ e - s then { md with duration := some (e - s) } else md
    | _, _ => md
  { b with exit_code := some exit_code, state := st, metadata := md }

/-- Rust `Block::append_output` (`src/core/block.rs:83-85`). -/
def append_output (b : Block) (text : String) : Block :=
  { b with output := b.output ++ text }

/-- Rust `Block::toggle_collapsed` (`src/core/block.rs:87-89`). -/
def toggle_collapsed (b : Block) : Block :=
  { b with is_collapsed := !b.is_collapsed }

/-- Rust `Block::set_selected` (`src/core/block.rs:91-93`). -/
def set_selected (b : Block) (selected : Bool) : Block :=
  { b with is_selected := selected }

/-- Rust `Block::is_running` (`src/core/block.rs:95-97`). -/
def is_running (b : Block) : Bool :=
  b.state = BlockState.Running

end Block

/-- Rust `BlockManager` from `src/core/manager.rs` lines 4–8. -/
structure BlockManager where
  blocks : List Block
  selected_block : Option Nat
deriving DecidableEq, Repr

/-- Rust `self.blocks.iter_mut().find(|b| &b.id == id)` followed by a mutation `f`
of the found block: the first block whose id matches is replaced by its image
under `f`; every other block is untouched.  Shared by the embeddings of
`get_block_mut`-based mutators in `src/core/manager.rs`. -/
def modifyFirst (f : Block → Block) : List Block → Nat → List Block
  | [], _ => []
  | b :: bs, id => if b.id = id then f b :: bs else b :: modifyFirst f bs id

namespace BlockManager

/-- Rust `BlockManager::new` (`src/core/manager.rs:11-16`). -/
def new : BlockManager :=
  { blocks := [], selected_block := none }

/-- Rust `BlockManager::add_block` (`src/core/manager.rs:18-22`): appends and
returns the block's id together with the updated manager. -/
def add_block (m : BlockManager) (block : Block) : Nat × BlockManager :=
  (block.id, { m with blocks := m.blocks ++ [block] })

/-- Rust `BlockManager::get_block` (`src/core/manager.rs:24-26`). -/
def get_block (m : BlockManager) (id : Nat) : Option Block :=
  m.blocks.find? (fun b => b.id = id)

/-- Rust `BlockManager::get_block_mut` (`src/core/manager.rs:28-30`) resolves the
same lookup as `get_block` (`iter_mut().find` over the same predicate); the
mutation applied through the returned reference is modelled at each call site
with `modifyFirst`. -/
def get_block_mut (m : BlockManager) (id : Nat) : Option Block :=
  m.blocks.find? (fun b => b.id = id)

/-- Rust `BlockManager::remove_block` (`src/core/manager.rs:40-46`): removes the
block at the position of the first id match, returning it; on a missing id
returns `none` and leaves the manager unchanged. -/
def remove_block (m : BlockManager) (id : Nat) : Option Block × BlockManager :=
  match m.blocks.find? (fun b => b.id = id) with
  | some b => (some b, { m with blocks := m.blocks.eraseP (fun b => b.id = id) })
  | none => (none, m)

/-- Rust `BlockManager::clear_all` (`src/core/manager.rs:48-51`). -/
def clear_all (_m : BlockManager) : BlockManager :=
  { blocks := [], selected_block := none }

/-- Rust `BlockManager::count` (`src/core/manager.rs:53-55`). -/
def count (m : BlockManager) : Nat :=
  m.blocks.length

/-- Rust `BlockManager::select_block` (`src/core/manager.rs:57-68`): first
deselects every block, then selects the first block whose id matches and
records it in `selected_block`.  When the id is absent the deselection has
already happened and `selected_block` keeps its old value. -/
def select_block (m : BlockManager) (id : Nat) : BlockManager :=
  let cleared := m.blocks.map (fun b => b.set_selected false)
  if (cleared.find? (fun b => b.id = id)).isSome then
    { blocks := modifyFirst (fun b => b.set_selected true) cleared id
      selected_block := some id }
  else
    { blocks := cleared, selected_block := m.selected_block }

/-- Rust `BlockManager::deselect_all` (`src/core/manager.rs:70-75`). -/
def deselect_all (m : BlockManager) : BlockManager :=
  { blocks := m.blocks.map (fun b => b.set_selected false), selected_block := none }

/-- Rust `BlockManager::get_selected_block` (`src/core/manager.rs:77-81`). -/
def get_selected_block (m : BlockManager) : Option Block :=
  m.selected_block.bind (fun id => m.get_block id)

/-- Rust `BlockManager::toggle_block_collapsed` (`src/core/manager.rs:91-95`). -/
def toggle_block_collapsed (m : BlockManager) (id : Nat) : BlockManager :=
  if (m.blocks.find? (fun b => b.id = id)).isSome then
    { m with blocks := modifyFirst Block.toggle_collapsed m.blocks id }
  else m

/-- Rust `BlockManager::get_running_blocks` (`src/core/manager.rs:97-99`). -/
def get_running_blocks (m : BlockManager) : List Block :=
  m.blocks.filter (fun b => b.is_running)

/-- Rust `BlockManager::copy_block_command` (`src/core/manager.rs:109-111`). -/
def copy_block_command (m : BlockManager) (id : Nat) : Option String :=
  (m.get_block id).map (fun b => b.command)

/-- Rust `BlockManager::copy_block_output` (`src/core/manager.rs:113-115`). -/
def copy_block_output (m : BlockManager) (id : Nat) : Option String :=
  (m.get_block id).map (fun b => b.output)

/-- Rust `BlockManager::copy_block_full` (`src/core/manager.rs:117-126`):
`format!("$ {}\n{}\n[Exit code: {}]", command, output, exit_code.unwrap_or(-1))`. -/
def copy_block_full (m : BlockManager) (id : Nat) : Option String :=
  (m.get_block id).map (fun b =>
    "$ " ++ b.command ++ "\n" ++ b.output ++ "\n[Exit code: " ++
      toString (b.exit_code.getD (-1)) ++ "]")

/-- Rust `BlockManager::duplicate_block_for_edit` (`src/core/manager.rs:129-141`).
The fresh block's `Uuid::new_v4()` / `Utc::now()` are passed as
`newId`/`now`. -/
def duplicate_block_for_edit (m : BlockManager) (id : Nat) (newId : Nat) (now : Int) :
    Option Nat × BlockManager :=
  match m.get_block id with
  | some original =>
    let nb := Block.new original.command original.metadata.working_directory newId now
    (some nb.id, { m with blocks := m.blocks ++ [nb] })
  | none => (none, m)

end BlockManager

/-- Rust `ProcessStatus` from `src/shell/process.rs` lines 5–11. -/
inductive ProcessStatus where
  | Running
  | Completed (code : Int)
  | Failed (code : Int)
  | Killed
deriving DecidableEq, Repr

/-- Rust `ProcessHandle` from `src/shell/process.rs` lines 13–18.  The shared
`Arc<Mutex<_>>` status cell and `AtomicBool` flag are modelled as plain
fields of an explicitly threaded state value. -/
structure ProcessHandle where
  id : Nat
  command : String
  status : ProcessStatus
  should_cancel : Bool
deriving DecidableEq, Repr

namespace ProcessHandle

/-- Rust `ProcessHandle::new` (`src/shell/process.rs:21-28`). -/
def new (command : String) (id : Nat) : ProcessHandle :=
  { id := id, command := command, status := ProcessStatus.Running, should_cancel := false }

/-- Rust `ProcessHandle::cancel` (`src/shell/process.rs:30-35`): stores `true` in
`should_cancel` and overwrites the status with `Killed`. -/
def cancel (h : ProcessHandle) : ProcessHandle :=
  { h with should_cancel := true, status := ProcessStatus.Killed }

/-- Rust `ProcessHandle::is_running` (`src/shell/process.rs:37-43`). -/
def is_running (h : ProcessHandle) : Bool :=
  h.status = ProcessStatus.Running

end ProcessHandle

/-- The only `cancel()` in the repository is `ProcessHandle::cancel`
(`src/shell/process.rs:30-35`); no function in `src/core/block.rs` or its
callers reacts to it or assigns `BlockState::Cancelled`.  This definition
applies the repository's cancel operation to the `(block, handle)` pair of a
running execution, recording its complete effect on both components. -/
def cancelRunningExecution (b : Block) (h : ProcessHandle) : Block × ProcessHandle :=
  (b, h.cancel)

/-! ## Persistence layer (`src/core/session_manager.rs`)

The SQLite `blocks` table is modelled as a list of `BlockRow` values.  Text
columns produced by external printers (uuid `to_string`, chrono
`to_rfc3339`, serde_json `to_string`) are modelled with the abstract codec
`Coded`: those printers are injective and their parsers accept exactly the
printed canonical forms among the strings the program can observe, so a
column holds either the canonical encoding `Coded.enc v` of a value or a
malformed string `Coded.bad s` that the parser rejects. -/

/-- Abstract external codec: `enc v` is the canonical printed form of `v`,
`bad s` a string the corresponding parser rejects. -/
inductive Coded (α : Type) where
  | enc (v : α)
  | bad (s : String)
deriving DecidableEq, Repr

/-- The partial parse of an externally encoded column
(`Uuid::parse_str`, `DateTime::parse_from_rfc3339`, `serde_json::from_str`). -/
def Coded.decode : Coded α → Option α
  | .enc v => some v
  | .bad _ => none

/-- One row of the `blocks` table, with the columns bound by
`SessionManager::save_block` (`src/core/session_manager.rs:105-135`) and read
back by `load_blocks` (`src/core/session_manager.rs:138-198`). -/
structure BlockRow where
  id : Coded Nat
  session_id : Coded Nat
  timestamp : Coded Int
  command : String
  output : String
  exit_code : Option Int
  state : String
  working_directory : String
  environment : Option (Coded (List (String × String)))
  started_at : Option (Coded Int)
  completed_at : Option (Coded Int)
  duration_ms : Option Int
  is_collapsed : Bool
  block_order : Int
deriving DecidableEq, Repr

/-- Rust `format!("{:?}", block.state)` (`src/core/session_manager.rs:122`): the
derived `Debug` printing of `BlockState` is the bare variant name. -/
def stateStr : BlockState → String
  | .Editing => "Editing"
  | .Running => "Running"
  | .Completed => "Completed"
  | .Failed => "Failed"
  | .Cancelled => "Cancelled"

/-- The state-string match of `load_blocks`
(`src/core/session_manager.rs:168-175`): unknown strings fall through to
`BlockState::Completed`. -/
def parseState (s : String) : BlockState :=
  if s = "Editing" then BlockState.Editing
  else if s = "Running" then BlockState.Running
  else if s = "Completed" then BlockState.Completed
  else if s = "Failed" then BlockState.Failed
  else if s = "Cancelled" then BlockState.Cancelled
  else BlockState.Completed

/-- The row written by `save_block` (`src/core/session_manager.rs:105-135`)
for `block` under `session_id` with caller-supplied `order`.
`duration_ms` is `duration.map(|d| d.as_millis() as i64)`: our durations are
already integer milliseconds, and the stored values the program itself
produces fit an `i64`, so the cast is the identity. -/
def blockToRow (session_id : Nat) (b : Block) (order : Int) : BlockRow :=
  { id := Coded.enc b.id
    session_id := Coded.enc session_id
    timestamp := Coded.enc b.timestamp
    command := b.command
    output := b.output
    exit_code := b.exit_code
    state := stateStr b.state
    working_directory := b.metadata.working_directory
    environment := some (Coded.enc b.metadata.environment)
    started_at := b.metadata.started_at.map Coded.enc
    completed_at := b.metadata.completed_at.map Coded.enc
    duration_ms := b.metadata.duration
    is_collapsed := b.is_collapsed
    block_order := order }

/-- Rust `SessionManager::save_block` (`src/core/session_manager.rs:105-135`):
`INSERT OR REPLACE INTO blocks …`.

Modelled from the spec: the migration file `migrations/001_initial_schema.sql`
(referenced by `src/core/database.rs:41`) is not part of the snapshot; per
spec §4.4 `save_block` is an "idempotent upsert keyed by block ID", so the
`REPLACE` conflict target is the `id` primary key: any existing row with the
same `id` is deleted and the new row inserted. -/
def saveBlock (db : List BlockRow) (session_id : Nat) (b : Block) (order : Int) :
    List BlockRow :=
  db.filter (fun r => r.id ≠ Coded.enc b.id) ++ [blockToRow session_id b order]

/-- The auto-save loop of `src/ui/app.rs:427-431`: each block of the sequence
is saved with its index (`enumerate()`) as `block_order`; `k` is the index of
the first block. -/
def saveBlocksFrom (db : List BlockRow) (session_id : Nat) :
    List Block → Nat → List BlockRow
  | [], _ => db
  | b :: bs, k => saveBlocksFrom (saveBlock db session_id b (k : Int)) session_id bs (k + 1)

/-- Reconstruction of one `Block` from a row, from the loop body of
`load_blocks` (`src/core/session_manager.rs:152-195`):
`Uuid::parse_str(&id)?` and `DateTime::parse_from_rfc3339(&timestamp)?`
abort the whole load on failure, while the state string, the environment
blob and the `started_at`/`completed_at` strings are coerced
(`unwrap_or_default` / `.ok()`) on failure.  `duration_ms` passes through
`Duration::from_millis(ms as u64)`, hence the explicit `% 2 ^ 64` wrap of the
`i64` value.  (The field `original_input: None` assigned at
`src/core/session_manager.rs:193` does not exist on the `Block` struct of
`src/core/block.rs` and is dropped.) -/
def rowToBlock (r : BlockRow) : Except String Block :=
  match r.id.decode with
  | none => Except.error "uuid"
  | some id =>
    match r.timestamp.decode with
    | none => Except.error "timestamp"
    | some ts =>
      Except.ok
        { id := id
          timestamp := ts
          command := r.command
          output := r.output
          exit_code := r.exit_code
          state := parseState r.state
          metadata :=
            { duration := r.duration_ms.map (fun ms => ms % 2 ^ 64)
              working_directory := r.working_directory
              environment := ((r.environment.bind Coded.decode).getD [])
              started_at := r.started_at.bind Coded.decode
              completed_at := r.completed_at.bind Coded.decode }
          is_collapsed := r.is_collapsed
          is_selected := false }

/-- The accumulation loop of `load_blocks`
(`src/core/session_manager.rs:152-195`): rows are converted in order, the
first failing conversion aborting the whole load. -/
def rowsToBlocks : List BlockRow → Except String (List Block)
  | [] => Except.ok []
  | r :: rs =>
    match rowToBlock r with
    | Except.error e => Except.error e
    | Except.ok b =>
      match rowsToBlocks rs with
      | Except.error e => Except.error e
      | Except.ok bs => Except.ok (b :: bs)

/-- Insertion step of `ORDER BY block_order ASC`. -/
def insertByOrder (r : BlockRow) : List BlockRow → List BlockRow
  | [] => [r]
  | x :: xs =>
    if r.block_order < x.block_order then r :: x :: xs else x :: insertByOrder r xs

/-- The SQL clause `ORDER BY block_order ASC` (`src/core/session_manager.rs:145`), as a
sort on the `block_order` column.  All theorems below use it on rows with
pairwise distinct `block_order` keys, where every sort produces the same
unique output. -/
def sortByOrder : List BlockRow → List BlockRow
  | [] => []
  | r :: rs => insertByOrder r (sortByOrder rs)

/-- Rust `SessionManager::load_blocks` (`src/core/session_manager.rs:138-198`):
`SELECT … FROM blocks WHERE session_id = ? ORDER BY block_order ASC`, then
the row-by-row reconstruction.  The `WHERE` clause compares the stored
`session_id` text with `session_id.to_string()`, i.e. with the canonical
encoding. -/
def loadBlocks (db : List BlockRow) (session_id : Nat) : Except String (List Block) :=
  rowsToBlocks (sortByOrder (db.filter (fun r => r.session_id = Coded.enc session_id)))

/-! ## Byte-level string operations (`Block::get_display_command`, UTF-8)

Rust strings are sequences of bytes that happen to be valid UTF-8; byte
indexing (`&s[..97]`, `String::len`, `str::is_char_boundary`) is modelled on
the byte list.  `utf8Valid` is the standard UTF-8 well-formedness check
(`String::from_utf8` succeeds exactly on such byte sequences). -/

/-- A UTF-8 continuation byte: `0x80 ≤ b ≤ 0xBF`. -/
def isCont (b : Nat) : Bool :=
  128 ≤ b && b ≤ 191

/-- UTF-8 well-formedness of a byte sequence, following the RFC 3629 table
(rejecting overlong forms, surrogates and values beyond `U+10FFFF`), i.e. the
success condition of `String::from_utf8`. -/
def utf8Valid : List Nat → Bool
  | [] => true
  | b :: rest =>
    if b ≤ 127 then utf8Valid rest
    else if 194 ≤ b && b ≤ 223 then
      match rest with
      | c1 :: rest1 => isCont c1 && utf8Valid rest1
      | [] => false
    else if b = 224 then
      match rest with
      | c1 :: c2 :: rest2 => (160 ≤ c1 && c1 ≤ 191) && isCont c2 && utf8Valid rest2
      | _ => false
    else if 225 ≤ b && b ≤ 236 then
      match rest with
      | c1 :: c2 :: rest2 => isCont c1 && isCont c2 && utf8Valid rest2
      | _ => false
    else if b = 237 then
      match rest with
      | c1 :: c2 :: rest2 => (128 ≤ c1 && c1 ≤ 159) && isCont c2 && utf8Valid rest2
      | _ => false
    else if 238 ≤ b && b ≤ 239 then
      match rest with
      | c1 :: c2 :: rest2 => isCont c1 && isCont c2 && utf8Valid rest2
      | _ => false
    else if b = 240 then
      match rest with
      | c1 :: c2 :: c3 :: rest3 =>
        (144 ≤ c1 && c1 ≤ 191) && isCont c2 && isCont c3 && utf8Valid rest3
      | _ => false
    else if 241 ≤ b && b ≤ 243 then
      match rest with
      | c1 :: c2 :: c3 :: rest3 => isCont c1 && isCont c2 && isCont c3 && utf8Valid rest3
      | _ => false
    else if b = 244 then
      match rest with
      | c1 :: c2 :: c3 :: rest3 =>
        (128 ≤ c1 && c1 ≤ 143) && isCont c2 && isCont c3 && utf8Valid rest3
      | _ => false
    else false

/-- Rust `str::is_char_boundary(i)` on the bytes of the string: true at 0 and at
the total length, false beyond it, and otherwise true iff the byte at `i` is
not a continuation byte. -/
def isCharBoundary (bytes : List Nat) (i : Nat) : Bool :=
  if i = 0 then true
  else
    match bytes.get? i with
    | some b => !isCont b
    | none => i = bytes.length

/-- Rust `Block::get_display_command` (`src/core/block.rs:103-109`) on the
command's UTF-8 bytes: commands of more than 100 bytes are truncated by the
byte slice `&self.command[..97]` followed by `"..."`.  The slice panics when
byte 97 is not a character boundary; the panic is modelled as `none`. -/
def get_display_command (cmd : List Nat) : Option (List Nat) :=
  if cmd.length > 100 then
    if isCharBoundary cmd 97 then some (cmd.take 97 ++ [46, 46, 46]) else none
  else some cmd

/-! ## `ShellExecutor::execute` (`src/shell/executor.rs`)

The read loop of `execute_blocking` (lines 104–138) is a pure function of
the sequence of outcomes that `reader.read` produces.  `OutputLine::Stdout`
carries the emitted line as its UTF-8 bytes (the Rust code sends the decoded
`String`; decoding is a bijection on valid byte sequences). -/

/-- Rust `OutputLine` from `src/shell/executor.rs:8-13`, with the text as UTF-8
bytes.  `Stderr` is never constructed by the executor. -/
inductive OutputLine where
  | Stdout (bytes : List Nat)
  | Stderr (bytes : List Nat)
  | Exit (code : Int)
deriving DecidableEq, Repr

/-- One outcome of `reader.read(&mut temp_buf)` in the read loop:
a chunk of bytes (`Ok(n)`, `n > 0`), `Ok(0)` (end of file), `WouldBlock`
(sleep and retry), or another read error (logged, loop exited). -/
inductive ReadEvent where
  | chunk (bytes : List Nat)
  | eof
  | wouldBlock
  | readErr
deriving DecidableEq, Repr

/-- The line-splitting inner loop (`src/shell/executor.rs:111-118`): drains
complete lines (each including its trailing `\n`, byte 10) off the front of
the buffer, returning the drained lines and the remaining linefeed-free
tail.  `acc` holds the reversed bytes of the current incomplete line. -/
def splitLinesAux (acc : List Nat) : List Nat → List (List Nat) × List Nat
  | [] => ([], acc.reverse)
  | b :: bs =>
    if b = 10 then
      let (ls, rest) := splitLinesAux [] bs
      ((acc.reverse ++ [10]) :: ls, rest)
    else
      splitLinesAux (b :: acc) bs

/-- Rust `String::from_utf8` guarded emission: a drained line becomes a `Stdout`
event iff its bytes are valid UTF-8, otherwise it is silently dropped
(`if let Ok(line) = String::from_utf8(..)` with no `else`,
`src/shell/executor.rs:113-117`). -/
def lineEvents (lines : List (List Nat)) : List OutputLine :=
  lines.filterMap (fun l => if utf8Valid l then some (OutputLine.Stdout l) else none)

/-- The partial-fragment flush (`src/shell/executor.rs:120-127`): once the
buffer exceeds 4096 bytes it is drained entirely, emitted as one `Stdout`
event when valid UTF-8 and silently cleared otherwise. -/
def largeBufFlush (buf : List Nat) : List OutputLine × List Nat :=
  if buf.length > 4096 then
    (if utf8Valid buf then [OutputLine.Stdout buf] else [], [])
  else ([], buf)

/-- The read loop (`src/shell/executor.rs:104-138`): processes the read
outcomes in order, threading the undrained buffer, until end of file, a read
error, or exhaustion of the outcome sequence.  Returns the emitted events
and the final buffer contents. -/
def readLoop : List ReadEvent → List Nat → List OutputLine × List Nat
  | [], buf => ([], buf)
  | ReadEvent.eof :: _, buf => ([], buf)
  | ReadEvent.readErr :: _, buf => ([], buf)
  | ReadEvent.wouldBlock :: rest, buf => readLoop rest buf
  | ReadEvent.chunk bs :: rest, buf =>
    let (lines, buf1) := splitLinesAux [] (buf ++ bs)
    let evs := lineEvents lines
    let (evs2, buf2) := largeBufFlush buf1
    let (evs3, buf3) := readLoop rest buf2
    (evs ++ evs2 ++ evs3, buf3)

/-- The end-of-loop flush (`src/shell/executor.rs:140-145`): a non-empty
remaining buffer is emitted as one `Stdout` event iff it is valid UTF-8,
otherwise it is silently discarded. -/
def finalFlush (buf : List Nat) : List OutputLine :=
  if buf.isEmpty then [] else if utf8Valid buf then [OutputLine.Stdout buf] else []

/-- The fate of one `execute` call once the stream is handed back: PTY
allocation failure (`openpty` error), spawn failure (`spawn_command` error),
or a spawned process whose reads produce `reads` and whose `child.wait()`
yields `waitCode` (`none` models a `wait` error). -/
inductive ExecSetup where
  | ptyFail
  | spawnFail
  | run (reads : List ReadEvent) (waitCode : Option Int)
deriving DecidableEq, Repr

/-- The events sent by `execute_blocking`
(`src/shell/executor.rs:59-157`) together with its success flag: the read
loop's events, the final flush, then — when `child.wait()` succeeds —
exactly one `Exit` with the process's exit code.  The channel receiver is
assumed to stay alive (a dropped receiver makes `tx.send` fail and the
worker return early, but then no consumer observes the stream at all). -/
def execute_blocking (reads : List ReadEvent) (waitCode : Option Int) :
    List OutputLine × Bool :=
  let (evs, buf) := readLoop reads []
  match waitCode with
  | some code => (evs ++ finalFlush buf ++ [OutputLine.Exit code], true)
  | none => (evs ++ finalFlush buf, false)

/-- The full event stream of `ShellExecutor::execute`
(`src/shell/executor.rs:40-57`): the spawned closure runs
`execute_blocking` and, when it returns an error (PTY failure, spawn
failure, or `wait` failure — all before or after the events already sent),
sends a final best-effort `Exit(-1)`. -/
def execute : ExecSetup → List OutputLine
  | ExecSetup.ptyFail => [OutputLine.Exit (-1)]
  | ExecSetup.spawnFail => [OutputLine.Exit (-1)]
  | ExecSetup.run reads waitCode =>
    let (evs, ok) := execute_blocking reads waitCode
    if ok then evs else evs ++ [OutputLine.Exit (-1)]

/-! ## Auto-save flag machine (`src/ui/app.rs`)

The fields of `ImmateriumApp` that `auto_save` and the output-polling arm of
`update` touch.  `Instant::elapsed()` is the whole seconds since the last
save; `config.general.auto_save_interval` is in seconds. -/

/-- The auto-save-relevant state of `ImmateriumApp` (`src/ui/app.rs:20-45`):
seconds elapsed since `last_save`, the `save_needed` dirty flag, whether a
`session_manager` is present, the configured interval, the block sequence
and the id of the currently running block. -/
structure AppSaveState where
  last_save_elapsed : Nat
  save_needed : Bool
  has_session_manager : Bool
  auto_save_interval : Nat
  block_manager : BlockManager
  current_block_id : Option Nat
deriving DecidableEq, Repr

/-- Rust `ImmateriumApp::auto_save` (`src/ui/app.rs:413-444`).  It returns early
unless the interval has elapsed and `save_needed` is set; otherwise, when a
session manager exists, it dispatches the persistence round as a detached
asynchronous task and immediately resets `last_save` and `save_needed`.
`persistResults` are the outcomes of the dispatched round's `save_block`
(and `touch_session`) calls: inside the task a failure is only logged
(`tracing::error!`, `src/ui/app.rs:429-436`), so the returned state does not
depend on them.  The second component reports whether a round was
dispatched. -/
def autoSave (s : AppSaveState) (persistResults : List Bool) : AppSaveState × Bool :=
  if s.last_save_elapsed < s.auto_save_interval || !s.save_needed then (s, false)
  else if s.has_session_manager then
    (let _ := persistResults
     ({ s with last_save_elapsed := 0, save_needed := false }, true))
  else (s, false)

/-- The `OutputMessage::Output(text)` arm of `ImmateriumApp::update`
(`src/ui/app.rs:648-655`): when a current block id exists and resolves, the
text is appended to that block and `save_needed` is set. -/
def onOutputMessage (s : AppSaveState) (text : String) : AppSaveState :=
  match s.current_block_id with
  | some id =>
    if (s.block_manager.get_block_mut id).isSome then
      { s with
        block_manager :=
          { s.block_manager with
            blocks := modifyFirst (fun b => b.append_output text) s.block_manager.blocks id }
        save_needed := true }
    else s
  | none => s

/-! ## Auxiliary definitions used by the theorems -/

/-- The rows an auto-save round produces for `blocks` starting at index `k`:
the `j`-th block of the list is saved with `block_order = k + j`. -/
def rowsOf (session_id : Nat) : List Block → Nat → List BlockRow
  | [], _ => []
  | b :: bs, k => blockToRow session_id b (k : Int) :: rowsOf session_id bs (k + 1)

/-- Recognizes a `Stdout` event. -/
def isStdoutEv : OutputLine → Bool
  | OutputLine.Stdout _ => true
  | _ => false

/-- A block that has been started and is `Running`, with
`started_at = some 5`. -/
def c1RunBlock : Block :=
  (Block.new "sleep 1" "/tmp" 1 0).start_execution 5

/-- A running block for the cancellation claim. -/
def c4Block : Block :=
  (Block.new "sleep 100" "/tmp" 1 0).start_execution 3

/-- The process handle of the running execution of `c4Block`. -/
def c4Handle : ProcessHandle :=
  ProcessHandle.new "sleep 100" 2

/-- A well-formed persisted row of session 7. -/
def c5GoodRow : BlockRow :=
  blockToRow 7 (Block.new "ls" "/" 1 0) 0

/-- A persisted row of session 7 whose `timestamp` column does not parse. -/
def c5BadTsRow : BlockRow :=
  { blockToRow 7 (Block.new "pwd" "/" 2 0) 1 with timestamp := Coded.bad "not-a-timestamp" }

/-- A manager holding one selected block (id 1). -/
def c7Manager : BlockManager :=
  { blocks := [{ Block.new "echo hi" "/tmp" 1 0 with is_selected := true }]
    selected_block := some 1 }

/-- An app state whose auto-save gate is open: the interval has elapsed,
`save_needed` is set and a session manager exists. -/
def c9State : AppSaveState :=
  { last_save_elapsed := 30
    save_needed := true
    has_session_manager := true
    auto_save_interval := 30
    block_manager := BlockManager.new
    current_block_id := none }

/-- An app state currently streaming output into running block 1, with
`save_needed` still clear. -/
def c9StreamingState : AppSaveState :=
  { last_save_elapsed := 0
    save_needed := false
    has_session_manager := true
    auto_save_interval := 30
    block_manager := { blocks := [c1RunBlock], selected_block := none }
    current_block_id := some 1 }

/-- A 101-byte command whose bytes 96–97 are the two-byte character `é`
(0xC3 0xA9), so byte 97 is a UTF-8 continuation byte. -/
def c10LongCommand : List Nat :=
  List.replicate 96 97 ++ [195, 169] ++ [97, 97, 97]

/-- A manager holding two unselected blocks with ids 1 and 2. -/
def c8Manager : BlockManager :=
  { blocks := [Block.new "echo one" "/tmp" 1 0, Block.new "echo two" "/tmp" 2 0]
    selected_block := none }

/-! ## Theorems -/

/-- C1 (counterexample): on the running block `c1RunBlock`
(`started_at = some 5`), completing at `now = 3` (a clock step backwards
between `start_execution` and `complete_execution`) leaves `started_at` and
`completed_at` both set yet `duration` unset: `(end - start).to_std()` fails
for the negative difference and the assignment is skipped, so the claim
"sets `duration` to `completed_at − started_at` whenever both are set" fails
at this input. -/
theorem c1_counterexample :
    (c1RunBlock.complete_execution 0 3).metadata.started_at = some 5 ∧
    (c1RunBlock.complete_execution 0 3).metadata.completed_at = some 3 ∧
    (c1RunBlock.complete_execution 0 3).metadata.duration = none ∧
    (c1RunBlock.complete_execution 0 3).metadata.duration ≠ some ((3 : Int) - 5) := by
  refine ⟨rfl, rfl, ?_, ?_⟩ <;> decide

/-- C1 (amended): for every `Running` block and exit code,
`complete_execution(c)` sets `exit_code` to `some c`, sets `completed_at`,
and sets the state to `Completed` iff `c = 0` (else `Failed`); whenever
`started_at` is set and `completed_at ≥ started_at`, `duration` is set to
`completed_at − started_at`, which is never negative; when
`completed_at < started_at` the duration is left unchanged rather than set
to a negative value. -/
theorem c1_complete_execution (b : Block) (c now : Int)
    (hb : b.state = BlockState.Running) :
    (b.complete_execution c now).exit_code = some c ∧
    (b.complete_execution c now).metadata.completed_at = some now ∧
    (b.complete_execution c now).state =
      (if c = 0 then BlockState.Completed else BlockState.Failed) ∧
    (∀ s, b.metadata.started_at = some s → s ≤ now →
      (b.complete_execution c now).metadata.duration = some (now - s) ∧ 0 ≤ now - s) ∧
    (∀ s, b.metadata.started_at = some s → now < s →
      (b.complete_execution c now).metadata.duration = b.metadata.duration) := by
  cases hs : b.metadata.started_at with
  | none =>
    refine ⟨rfl, ?_, rfl, fun s h => ?_, fun s h => ?_⟩
    · simp [Block.complete_execution, hs]
    · exact Option.noConfusion h
    · exact Option.noConfusion h
  | some s0 =>
    by_cases hle : 0 ≤ now - s0
    · refine ⟨rfl, ?_, rfl, fun s h h2 => ?_, fun s h h2 => ?_⟩
      · simp [Block.complete_execution, hs, hle]
      · injection h with h
        subst h
        exact ⟨by simp [Block.complete_execution, hs, hle], by omega⟩
      · injection h with h
        omega
    · refine ⟨rfl, ?_, rfl, fun s h h2 => ?_, fun s h h2 => ?_⟩
      · simp [Block.complete_execution, hs, hle]
      · injection h with h
        omega
      · simp [Block.complete_execution, hs, hle]

/-- C1 (witness): the amended theorem applied to the concrete running block
`c1RunBlock` (`started_at = some 5`) with exit code 0 at `now = 9`. -/
theorem c1_witness :
    c1RunBlock.state = BlockState.Running ∧
    (c1RunBlock.complete_execution 0 9).exit_code = some 0 ∧
    (c1RunBlock.complete_execution 0 9).metadata.completed_at = some 9 ∧
    (c1RunBlock.complete_execution 0 9).state =
      (if (0 : Int) = 0 then BlockState.Completed else BlockState.Failed) ∧
    (c1RunBlock.complete_execution 0 9).metadata.duration = some ((9 : Int) - 5) ∧
    0 ≤ (9 : Int) - 5 := by
  have h := c1_complete_execution c1RunBlock 0 9 rfl
  exact ⟨rfl, h.1, h.2.1, h.2.2.1, (h.2.2.2.1 5 rfl (by omega)).1, (h.2.2.2.1 5 rfl (by omega)).2⟩

/-- C2: the `BlockState` enum of `src/core/block.rs` has exactly the five
variants `Editing`, `Running`, `Completed`, `Failed`, `Cancelled` — there is
no sixth `PendingApproval` variant, although `src/ui/block_widget.rs:18`,
`src/ai/context.rs:133` and `src/ui/app.rs:695` (which calls the likewise
absent `Block::new_pending_approval`) all require one. -/
theorem c2_state_space :
    (∀ s : BlockState,
      s ∈ [BlockState.Editing, BlockState.Running, BlockState.Completed,
            BlockState.Failed, BlockState.Cancelled]) ∧
    [BlockState.Editing, BlockState.Running, BlockState.Completed,
      BlockState.Failed, BlockState.Cancelled].Nodup ∧
    [BlockState.Editing, BlockState.Running, BlockState.Completed,
      BlockState.Failed, BlockState.Cancelled].length = 5 := by
  refine ⟨fun s => ?_, by decide, rfl⟩
  cases s <;> simp

/-- C4 (counterexample): applying the repository's only `cancel()`
(`ProcessHandle::cancel`) to the running execution `(c4Block, c4Handle)`
leaves the block's state at `Running`, not `Cancelled`: no operation in the
code sets a block's state to `Cancelled`. -/
theorem c4_counterexample :
    c4Block.state = BlockState.Running ∧
    (cancelRunningExecution c4Block c4Handle).1.state = BlockState.Running ∧
    (cancelRunningExecution c4Block c4Handle).1.state ≠ BlockState.Cancelled := by
  refine ⟨rfl, rfl, by decide⟩

/-- C4 (amended): for every running execution, the only `cancel()` in the
code — `ProcessHandle::cancel` — sets the handle's `should_cancel` flag and
overwrites its status with `Killed`, while the block is left entirely
unchanged: its state stays `Running` and its `exit_code` stays unset. -/
theorem c4_cancel (b : Block) (h : ProcessHandle) (hb : b.state = BlockState.Running) :
    (cancelRunningExecution b h).1 = b ∧
    (cancelRunningExecution b h).1.state = BlockState.Running ∧
    (cancelRunningExecution b h).1.exit_code = b.exit_code ∧
    (cancelRunningExecution b h).2.should_cancel = true ∧
    (cancelRunningExecution b h).2.status = ProcessStatus.Killed :=
  ⟨rfl, hb, rfl, rfl, rfl⟩

/-- C4 (witness): the amended theorem applied to the concrete running
execution `(c4Block, c4Handle)`. -/
theorem c4_witness :
    c4Block.state = BlockState.Running ∧
    ((cancelRunningExecution c4Block c4Handle).1 = c4Block ∧
      (cancelRunningExecution c4Block c4Handle).1.state = BlockState.Running ∧
      (cancelRunningExecution c4Block c4Handle).1.exit_code = c4Block.exit_code ∧
      (cancelRunningExecution c4Block c4Handle).2.should_cancel = true ∧
      (cancelRunningExecution c4Block c4Handle).2.status = ProcessStatus.Killed) :=
  ⟨rfl, c4_cancel c4Block c4Handle rfl⟩

/-- C9 (counterexample): with the auto-save gate open (`c9State`:
interval elapsed, `save_needed = true`, session manager present), the round
is dispatched and `save_needed` is reset to `false` immediately — the
resulting state is identical whether every persistence call of the round
fails (`[false, false]`) or succeeds (`[true, true]`), refuting "resets to
false only after a successful persistence round". -/
theorem c9_counterexample :
    c9State.save_needed = true ∧
    (autoSave c9State [false, false]).1.save_needed = false ∧
    autoSave c9State [false, false] = autoSave c9State [true, true] := by
  refine ⟨rfl, rfl, rfl⟩

/-- C9 (amended): appending output to the running block sets `save_needed`;
`save_needed` resets from true to false exactly when the configured
interval has elapsed and a session manager is present — at the moment the
persistence round is dispatched, independent of whether that round later
succeeds or fails (failures are only logged). -/
theorem c9_auto_save :
    (∀ s r1 r2, autoSave s r1 = autoSave s r2) ∧
    (∀ s r, (autoSave s r).1.save_needed =
      (s.save_needed &&
        !(decide (s.auto_save_interval ≤ s.last_save_elapsed) && s.has_session_manager))) ∧
    (∀ s text id, s.current_block_id = some id →
      (s.block_manager.get_block_mut id).isSome = true →
      (onOutputMessage s text).save_needed = true) := by
  refine ⟨fun s r1 r2 => ?_, fun s r => ?_, fun s text id hid hsome => ?_⟩
  · simp only [autoSave]
  · by_cases he : s.last_save_elapsed < s.auto_save_interval <;>
      cases hn : s.save_needed <;> cases hm : s.has_session_manager <;>
      simp [autoSave, he, hn, hm] <;> omega
  · simp only [onOutputMessage, hid, hsome, if_pos]

/-- C9 (witness): the amended theorem applied at `c9State` (flag reset on
dispatch) and at `c9StreamingState` (output for running block 1 sets the
flag). -/
theorem c9_witness :
    (autoSave c9State [false] = autoSave c9State [true]) ∧
    ((autoSave c9State []).1.save_needed =
      (c9State.save_needed &&
        !(decide (c9State.auto_save_interval ≤ c9State.last_save_elapsed) &&
          c9State.has_session_manager))) ∧
    (c9StreamingState.current_block_id = some 1 ∧
      (c9StreamingState.block_manager.get_block_mut 1).isSome = true ∧
      (onOutputMessage c9StreamingState "hello\n").save_needed = true) :=
  ⟨c9_auto_save.1 c9State [false] [true], c9_auto_save.2.1 c9State [],
    ⟨rfl, by decide, c9_auto_save.2.2 c9StreamingState "hello\n" 1 rfl (by decide)⟩⟩

/-- C10: `get_display_command` returns commands of at most 100 bytes
unchanged, and on the valid-UTF-8 101-byte command `c10LongCommand`, whose
two-byte character straddles byte index 97, the byte slice
`&self.command[..97]` is out of character bounds and the function panics
(modelled as `none`). -/
theorem c10_display_command :
    (∀ cmd : List Nat, cmd.length ≤ 100 → get_display_command cmd = some cmd) ∧
    utf8Valid c10LongCommand = true ∧
    c10LongCommand.length > 100 ∧
    get_display_command c10LongCommand = none := by
  refine ⟨fun cmd h => ?_, by decide, by decide, by decide⟩
  simp only [get_display_command]
  rw [if_neg (by omega)]

/-- C10 (witness): the total part of the theorem applied to the one-byte
command `[97]`. -/
theorem c10_witness :
    ([97] : List Nat).length ≤ 100 ∧ get_display_command [97] = some [97] :=
  ⟨by decide, c10_display_command.1 [97] (by decide)⟩

/-- C5 (counterexample): a session containing one well-formed row and one
row whose `timestamp` column does not parse: `load_blocks` aborts the whole
session load with an error (`DateTime::parse_from_rfc3339(&timestamp)?`),
instead of coercing the malformed timestamp to a default. -/
theorem c5_counterexample :
    (∃ bs, loadBlocks [c5GoodRow] 7 = Except.ok bs) ∧
    loadBlocks [c5GoodRow, c5BadTsRow] 7 = Except.error "timestamp" :=
  ⟨⟨_, rfl⟩, rfl⟩

/-- C5 (amended): an unrecognized persisted state string is silently coerced
to the default `Completed`, and unparseable `started_at`/`completed_at`
strings are coerced to `none` — but an unparseable `timestamp` column (with
a parseable `id`) makes `rowToBlock`, and hence the whole session load,
fail with an error rather than degrade. -/
theorem c5_malformed_rows :
    (∀ str : String, str ≠ "Editing" → str ≠ "Running" → str ≠ "Completed" →
      str ≠ "Failed" → str ≠ "Cancelled" → parseState str = BlockState.Completed) ∧
    (∀ r : BlockRow, ∀ i : Nat, ∀ t : Int,
      r.id.decode = some i → r.timestamp.decode = some t →
      ∃ b, rowToBlock r = Except.ok b ∧
        b.state = parseState r.state ∧
        b.metadata.started_at = r.started_at.bind Coded.decode ∧
        b.metadata.completed_at = r.completed_at.bind Coded.decode) ∧
    (∀ r : BlockRow, ∀ i : Nat,
      r.id.decode = some i → r.timestamp.decode = none →
      rowToBlock r = Except.error "timestamp") := by
  refine ⟨fun str h1 h2 h3 h4 h5 => ?_, fun r i t hi ht => ?_, fun r i hi ht => ?_⟩
  · simp [parseState, h1, h2, h3, h4, h5]
  · obtain ⟨rid, rsid, rts, rcmd, rout, rec, rst, rwd, renv, rsa, rca, rdm, ric, rbo⟩ := r
    cases rid with
    | bad s => simp [Coded.decode] at hi
    | enc v =>
      cases rts with
      | bad s => simp [Coded.decode] at ht
      | enc tv => exact ⟨_, rfl, rfl, rfl, rfl⟩
  · obtain ⟨rid, rsid, rts, rcmd, rout, rec, rst, rwd, renv, rsa, rca, rdm, ric, rbo⟩ := r
    cases rid with
    | bad s => simp [Coded.decode] at hi
    | enc v =>
      cases rts with
      | bad s => rfl
      | enc tv => simp [Coded.decode] at ht

/-- C5 (witness): the amended theorem applied to the unknown state string
`"PendingApproval"`, to a concrete row with malformed `started_at` and
`completed_at` columns, and to the concrete bad-timestamp row
`c5BadTsRow`. -/
theorem c5_witness :
    parseState "PendingApproval" = BlockState.Completed ∧
    (rowToBlock
      { c5GoodRow with
        state := "Garbled"
        started_at := some (Coded.bad "x")
        completed_at := some (Coded.bad "y") }).isOk = true ∧
    rowToBlock c5BadTsRow = Except.error "timestamp" := by
  refine ⟨c5_malformed_rows.1 "PendingApproval" (by decide) (by decide) (by decide)
      (by decide) (by decide), ?_, c5_malformed_rows.2.2 c5BadTsRow 2 rfl rfl⟩
  obtain ⟨b, hb, -, -, -⟩ :=
    c5_malformed_rows.2.1
      { c5GoodRow with
        state := "Garbled"
        started_at := some (Coded.bad "x")
        completed_at := some (Coded.bad "y") } 1 0 rfl rfl
  rw [hb]
  rfl

/-- C7 (counterexample): calling `select_block` with the absent id 2 on a
manager whose only block (id 1) is selected does not leave the manager
unchanged: the deselect-all pass has already run, so block 1 loses its
selection while `selected_block` keeps pointing at it. -/
theorem c7_counterexample :
    c7Manager.get_block 2 = none ∧
    (c7Manager.blocks.map (fun b => b.is_selected)) = [true] ∧
    ((c7Manager.select_block 2).blocks.map (fun b => b.is_selected)) = [false] ∧
    (c7Manager.select_block 2).selected_block = some 1 ∧
    c7Manager.select_block 2 ≠ c7Manager := by
  refine ⟨rfl, rfl, rfl, rfl, by decide⟩

/-- C7 (amended): every by-ID operation except `select_block` is a no-op
returning an empty result on a missing id (`get_block`, `get_block_mut`,
`copy_block_*` return `none`; `remove_block`, `duplicate_block_for_edit`
return `none` with the manager unchanged; `toggle_block_collapsed` leaves
the manager unchanged); `select_block` on a missing id still deselects every
block — mutating the manager whenever some block was selected — and leaves
the stale `selected_block` pointer in place. -/
theorem c7_missing_id (m : BlockManager) (id newId : Nat) (now : Int)
    (h : m.get_block id = none) :
    m.get_block_mut id = none ∧
    m.remove_block id = (none, m) ∧
    m.toggle_block_collapsed id = m ∧
    m.copy_block_command id = none ∧
    m.copy_block_output id = none ∧
    m.copy_block_full id = none ∧
    m.duplicate_block_for_edit id newId now = (none, m) ∧
    m.select_block id =
      { blocks := m.blocks.map (fun b => b.set_selected false)
        selected_block := m.selected_block } := by
  have hmut : m.get_block_mut id = none := h
  have hfind : m.blocks.find? (fun b => b.id = id) = none := h
  have hcleared :
      ((m.blocks.map (fun b => b.set_selected false)).find? (fun b => b.id = id)) = none := by
    rw [List.find?_map]
    have hcomp : ((fun b : Block => decide (b.id = id)) ∘ fun b => b.set_selected false) =
        (fun b : Block => decide (b.id = id)) := rfl
    rw [hcomp, hfind]
    rfl
  refine ⟨hmut, ?_, ?_, ?_, ?_, ?_, ?_, ?_⟩
  · simp only [BlockManager.get_block] at h
    simp [BlockManager.remove_block, h]
  · simp only [BlockManager.get_block] at h
    simp [BlockManager.toggle_block_collapsed, h]
  · simp [BlockManager.copy_block_command, h]
  · simp [BlockManager.copy_block_output, h]
  · simp [BlockManager.copy_block_full, h]
  · simp [BlockManager.duplicate_block_for_edit, h]
  · simp [BlockManager.select_block, hcleared]

/-- Mapping a function that is blind to the modification over a
`modifyFirst` result gives the same list as mapping it directly. -/
theorem map_modifyFirst {γ : Type} (f : Block → Block) (g : Block → γ)
    (hg : ∀ b, g (f b) = g b) (l : List Block) (id : Nat) :
    (modifyFirst f l id).map g = l.map g := by
  induction l with
  | nil => rfl
  | cons b bs ih =>
    simp only [modifyFirst]
    by_cases hb : b.id = id
    · simp [hb, hg]
    · simp [hb, ih]

/-- Deselecting preserves block ids. -/
theorem ids_map_deselect (l : List Block) :
    (l.map (fun b => b.set_selected false)).map (fun b => b.id) =
      l.map (fun b => b.id) := by
  induction l with
  | nil => rfl
  | cons b bs ih => simp [ih, Block.set_selected]

/-- Deselecting twice is deselecting once. -/
theorem map_deselect_deselect (l : List Block) :
    (l.map (fun b => b.set_selected false)).map (fun b => b.set_selected false) =
      l.map (fun b => b.set_selected false) := by
  induction l with
  | nil => rfl
  | cons b bs ih => simp [ih, Block.set_selected]

/-- On a list with duplicate-free ids containing `a`, the deselect-all pass
followed by `modifyFirst` of the selection marks exactly the blocks whose id
is `a`. -/
theorem select_spec (a : Nat) : ∀ l : List Block,
    (l.map (fun b => b.id)).Nodup → a ∈ l.map (fun b => b.id) →
    ∀ blk ∈ modifyFirst (fun b => b.set_selected true)
        (l.map (fun b => b.set_selected false)) a,
      blk.is_selected = true ↔ blk.id = a := by
  intro l
  induction l with
  | nil => intro _ ha; simp at ha
  | cons b bs ih =>
    intro hnd ha blk hblk
    simp only [List.map_cons, modifyFirst, Block.set_selected] at hblk
    simp only [List.map_cons, List.nodup_cons] at hnd
    by_cases hba : b.id = a
    · rw [if_pos hba] at hblk
      rcases List.mem_cons.mp hblk with hhd | htl
      · subst hhd
        simpa using hba
      · rcases List.mem_map.mp htl with ⟨orig, horig, hd⟩
        subst hd
        have : orig.id ∈ bs.map (fun b => b.id) := List.mem_map.mpr ⟨orig, horig, rfl⟩
        have hne : orig.id ≠ a := fun hcontra => hnd.1 (by rw [hba, ← hcontra] at *; exact this)
        simp [Block.set_selected, hne]
    · rw [if_neg hba] at hblk
      rcases List.mem_cons.mp hblk with hhd | htl
      · subst hhd
        simp [Block.set_selected, hba]
      · have ha' : a ∈ bs.map (fun b => b.id) := by
          have hmem : a = b.id ∨ ∃ x ∈ bs, x.id = a := by simpa using ha
          rcases hmem with h1 | ⟨x, hx, hxa⟩
          · exact absurd h1.symm hba
          · exact List.mem_map.mpr ⟨x, hx, hxa⟩
        exact ih hnd.2 ha' blk htl

/-- Rust `select_block` on a present id: the if-branch taken is the selection
branch, with `selected_block` updated. -/
theorem select_block_mem (m : BlockManager) (a : Nat)
    (ha : a ∈ m.blocks.map (fun b => b.id)) :
    m.select_block a =
      { blocks := modifyFirst (fun b => b.set_selected true)
          (m.blocks.map (fun b => b.set_selected false)) a
        selected_block := some a } := by
  have hsome :
      ((m.blocks.map (fun b => b.set_selected false)).find?
        (fun b => b.id = a)).isSome = true := by
    rw [List.find?_map]
    have hcomp : ((fun b : Block => decide (b.id = a)) ∘ fun b => b.set_selected false) =
        (fun b : Block => decide (b.id = a)) := rfl
    rw [hcomp]
    rcases List.mem_map.mp ha with ⟨x, hx, hxa⟩
    cases hf : m.blocks.find? (fun b => decide (b.id = a)) with
    | none => exact absurd (by simpa using hxa) (List.find?_eq_none.mp hf x hx)
    | some y => rfl
  simp only [BlockManager.select_block, hsome, if_pos]

/-- The persisted Debug state names parse back to the same state. -/
theorem parseState_stateStr (s : BlockState) : parseState (stateStr s) = s := by
  cases s <;> rfl

/-- Converting a freshly saved row back reproduces the block's command,
output and exit code. -/
theorem rowToBlock_blockToRow (sid : Nat) (b : Block) (k : Int) :
    ∃ lb, rowToBlock (blockToRow sid b k) = Except.ok lb ∧
      lb.command = b.command ∧ lb.output = b.output ∧ lb.exit_code = b.exit_code :=
  ⟨_, rfl, rfl, rfl, rfl⟩

/-- Converting the rows of a saved block sequence back succeeds and
reproduces the commands, outputs and exit codes in order. -/
theorem rowsToBlocks_rowsOf (sid : Nat) : ∀ (blocks : List Block) (k : Nat),
    ∃ loaded, rowsToBlocks (rowsOf sid blocks k) = Except.ok loaded ∧
      loaded.map (fun b => b.command) = blocks.map (fun b => b.command) ∧
      loaded.map (fun b => b.output) = blocks.map (fun b => b.output) ∧
      loaded.map (fun b => b.exit_code) = blocks.map (fun b => b.exit_code) := by
  intro blocks
  induction blocks with
  | nil => exact fun k => ⟨[], rfl, rfl, rfl, rfl⟩
  | cons b bs ih =>
    intro k
    obtain ⟨loaded, hl, hc, ho, he⟩ := ih (k + 1)
    obtain ⟨lb, hlb, hbc, hbo, hbe⟩ := rowToBlock_blockToRow sid b (k : Int)
    refine ⟨lb :: loaded, ?_, ?_, ?_, ?_⟩
    · simp only [rowsOf, rowsToBlocks, hlb, hl]
    · simp [hbc, hc]
    · simp [hbo, ho]
    · simp [hbe, he]

/-- Every row saved for a block at index ≥ k has `block_order ≥ k`. -/
theorem rowsOf_order_ge (sid : Nat) : ∀ (blocks : List Block) (k : Nat) (r : BlockRow),
    r ∈ rowsOf sid blocks k → (k : Int) ≤ r.block_order := by
  intro blocks
  induction blocks with
  | nil => intro k r hr; simp [rowsOf] at hr
  | cons b bs ih =>
    intro k r hr
    rcases List.mem_cons.mp hr with h | h
    · subst h
      exact le_refl _
    · have := ih (k + 1) r h
      push_cast at this ⊢
      omega

/-- The rows of one save round are already in ascending `block_order`, so
the `ORDER BY` sort returns them unchanged. -/
theorem sortByOrder_rowsOf (sid : Nat) : ∀ (blocks : List Block) (k : Nat),
    sortByOrder (rowsOf sid blocks k) = rowsOf sid blocks k := by
  intro blocks
  induction blocks with
  | nil => intro k; rfl
  | cons b bs ih =>
    intro k
    simp only [rowsOf, sortByOrder, ih (k + 1)]
    cases hbs : rowsOf sid bs (k + 1) with
    | nil => rfl
    | cons x xs =>
      have hx : ((k : Int) + 1) ≤ x.block_order := by
        have := rowsOf_order_ge sid bs (k + 1) x (by rw [hbs]; exact List.mem_cons_self x xs)
        push_cast at this
        omega
      have hk : (blockToRow sid b (k : Int)).block_order = (k : Int) := rfl
      simp only [insertByOrder]
      rw [if_pos (by rw [hk]; omega)]

/-- Filtering by `q` first does not change a `p`-filter when every
`p`-element is a `q`-element. -/
theorem filter_filter_of_imp {α : Type} {p q : α → Bool} : ∀ (l : List α),
    (∀ a ∈ l, p a = true → q a = true) →
    (l.filter q).filter p = l.filter p := by
  intro l
  induction l with
  | nil => intro _; rfl
  | cons x xs ih =>
    intro h
    rw [List.filter_cons, List.filter_cons]
    by_cases hq : q x = true
    · rw [if_pos hq, List.filter_cons]
      by_cases hp : p x = true
      · rw [if_pos hp, if_pos hp, ih (fun a ha => h a (List.mem_cons_of_mem x ha))]
      · rw [if_neg hp, if_neg hp, ih (fun a ha => h a (List.mem_cons_of_mem x ha))]
    · rw [if_neg hq]
      by_cases hp : p x = true
      · exact absurd (h x (List.mem_cons_self x xs) hp) hq
      · rw [if_neg hp, ih (fun a ha => h a (List.mem_cons_of_mem x ha))]

/-- Effect of one upsert on the rows of session `sid`, when no current row
of that session carries the saved block's id: the old session rows survive
the `REPLACE` and the fresh row is appended. -/
theorem filter_sess_saveBlock (db : List BlockRow) (sid : Nat) (b : Block) (k : Int)
    (hid : ∀ r ∈ db, r.session_id = Coded.enc sid → r.id ≠ Coded.enc b.id) :
    (saveBlock db sid b k).filter (fun r => r.session_id = Coded.enc sid) =
      db.filter (fun r => r.session_id = Coded.enc sid) ++ [blockToRow sid b k] := by
  simp only [saveBlock, List.filter_append]
  have h1 : (db.filter (fun r => r.id ≠ Coded.enc b.id)).filter
      (fun r => r.session_id = Coded.enc sid) =
      db.filter (fun r => r.session_id = Coded.enc sid) := by
    apply filter_filter_of_imp
    intro r hr hsess
    have hs : r.session_id = Coded.enc sid := by simpa using hsess
    simpa using hid r hr hs
  have h2 : ([blockToRow sid b k]).filter (fun r => r.session_id = Coded.enc sid) =
      [blockToRow sid b k] := by
    simp [blockToRow]
  rw [h1, h2]

/-- After saving a duplicate-free block sequence starting at index `k` into
a database none of whose `sid`-rows collides with the blocks' ids, the rows
of session `sid` are the old ones followed by the fresh rows in save
order. -/
theorem saveBlocksFrom_filter (sid : Nat) : ∀ (blocks : List Block) (db : List BlockRow)
    (k : Nat),
    (blocks.map (fun b => b.id)).Nodup →
    (∀ r ∈ db, r.session_id = Coded.enc sid → ∀ b' ∈ blocks, r.id ≠ Coded.enc b'.id) →
    (saveBlocksFrom db sid blocks k).filter (fun r => r.session_id = Coded.enc sid) =
      db.filter (fun r => r.session_id = Coded.enc sid) ++ rowsOf sid blocks k := by
  intro blocks
  induction blocks with
  | nil => intro db k _ _; simp [saveBlocksFrom, rowsOf]
  | cons b bs ih =>
    intro db k hnd hdb
    have hsplit : (∀ x ∈ bs, ¬x.id = b.id) ∧ (bs.map (fun b => b.id)).Nodup := by
      simpa using hnd
    obtain ⟨hni, hnd'⟩ := hsplit
    have hdb' : ∀ r ∈ saveBlock db sid b (k : Int), r.session_id = Coded.enc sid →
        ∀ b' ∈ bs, r.id ≠ Coded.enc b'.id := by
      intro r hr hsess b' hb'
      rcases List.mem_append.mp hr with hold | hnew
      · exact hdb r (List.mem_of_mem_filter hold) hsess b' (List.mem_cons_of_mem b hb')
      · have hr' : r = blockToRow sid b (k : Int) := by simpa using hnew
        subst hr'
        intro hcontra
        have hbb' : b.id = b'.id := by
          simpa [blockToRow] using hcontra
        exact hni b' hb' hbb'.symm
    have hstep := ih (saveBlock db sid b (k : Int)) (k + 1) hnd' hdb'
    simp only [saveBlocksFrom, rowsOf]
    rw [hstep]
    rw [filter_sess_saveBlock db sid b (k : Int)
      (fun r hr hsess => hdb r hr hsess b (List.mem_cons_self b bs))]
    simp [List.append_assoc]

/-- C3: starting from a database without rows for session `sid`, saving each
block of a duplicate-free-id sequence with its in-memory index as `order`
and then loading the session succeeds and yields blocks with the same
commands, outputs and exit codes in the same order — the order being driven
by the persisted `block_order` column (the blocks' timestamps are arbitrary
and play no role). -/
theorem c3_round_trip (db0 : List BlockRow) (sid : Nat) (blocks : List Block)
    (hnd : (blocks.map (fun b => b.id)).Nodup)
    (hclean : ∀ r ∈ db0, r.session_id ≠ Coded.enc sid) :
    ∃ loaded, loadBlocks (saveBlocksFrom db0 sid blocks 0) sid = Except.ok loaded ∧
      loaded.map (fun b => b.command) = blocks.map (fun b => b.command) ∧
      loaded.map (fun b => b.output) = blocks.map (fun b => b.output) ∧
      loaded.map (fun b => b.exit_code) = blocks.map (fun b => b.exit_code) := by
  have hdb : ∀ r ∈ db0, r.session_id = Coded.enc sid →
      ∀ b' ∈ blocks, r.id ≠ Coded.enc b'.id :=
    fun r hr hsess => absurd hsess (hclean r hr)
  have hfilter := saveBlocksFrom_filter sid blocks db0 0 hnd hdb
  have hempty : db0.filter (fun r => r.session_id = Coded.enc sid) = [] := by
    rw [List.filter_eq_nil_iff]
    intro r hr
    simpa using hclean r hr
  rw [loadBlocks, hfilter, hempty, List.nil_append, sortByOrder_rowsOf]
  exact rowsToBlocks_rowsOf sid blocks 0

/-- C3 (witness): the theorem applied to the fresh session 7 with two
distinct blocks; the loaded commands come back in save order. -/
theorem c3_witness :
    ((loadBlocks
        (saveBlocksFrom [] 7 [Block.new "alpha" "/" 1 0, Block.new "beta" "/" 2 0] 0)
        7).map
      (fun bs => bs.map (fun b => b.command))) = Except.ok ["alpha", "beta"] := by
  obtain ⟨loaded, hl, hc, -, -⟩ :=
    c3_round_trip [] 7 [Block.new "alpha" "/" 1 0, Block.new "beta" "/" 2 0]
      (by decide) (by simp)
  rw [hl, Except.map, hc]
  rfl

/-- Every event emitted for drained lines is a `Stdout` event. -/
theorem lineEvents_stdout (ls : List (List Nat)) :
    (lineEvents ls).all isStdoutEv = true := by
  induction ls with
  | nil => rfl
  | cons l ls ih =>
    by_cases h : utf8Valid l
    · simpa [lineEvents, h, isStdoutEv] using ih
    · simpa [lineEvents, h] using ih

/-- Every event emitted by the large-buffer flush is a `Stdout` event. -/
theorem largeBufFlush_stdout (b : List Nat) :
    ((largeBufFlush b).1).all isStdoutEv = true := by
  simp only [largeBufFlush]
  split
  · split <;> rfl
  · rfl

/-- Every event emitted by the end-of-loop flush is a `Stdout` event. -/
theorem finalFlush_stdout (b : List Nat) :
    (finalFlush b).all isStdoutEv = true := by
  simp only [finalFlush]
  split
  · rfl
  · split <;> rfl

/-- The read loop emits only `Stdout` events — never an `Exit`. -/
theorem readLoop_stdout : ∀ (reads : List ReadEvent) (buf : List Nat),
    ((readLoop reads buf).1).all isStdoutEv = true := by
  intro reads
  induction reads with
  | nil => intro buf; rfl
  | cons ev rest ih =>
    intro buf
    cases ev with
    | eof => rfl
    | readErr => rfl
    | wouldBlock => exact ih buf
    | chunk bs =>
      rcases hs : splitLinesAux [] (buf ++ bs) with ⟨lines, buf1⟩
      rcases hf : largeBufFlush buf1 with ⟨evs2, buf2⟩
      rcases hr : readLoop rest buf2 with ⟨evs3, buf3⟩
      have h2 : evs2.all isStdoutEv = true := by
        have := largeBufFlush_stdout buf1
        rw [hf] at this
        exact this
      have h3 : evs3.all isStdoutEv = true := by
        have := ih buf2
        rw [hr] at this
        exact this
      simp only [readLoop, hs, hf, hr]
      rw [List.all_append, List.all_append]
      rw [lineEvents_stdout, h2, h3]
      rfl

/-- C6 (counterexample): the execution reads the single byte `0xFF` (not
valid UTF-8) and then terminates normally with exit code 0: the byte is
left in the buffer at process exit, the end-of-loop flush silently discards
it (`String::from_utf8` fails and there is no `else` branch), and the
stream ends as just `[Exit 0]` — the remaining buffered byte is never
flushed as an output event, refuting "all remaining buffered bytes are
flushed as output events before the single Exit(code) event". -/
theorem c6_counterexample :
    (readLoop [ReadEvent.chunk [255]] []).2 = [255] ∧
    utf8Valid [255] = false ∧
    execute (ExecSetup.run [ReadEvent.chunk [255]] (some 0)) = [OutputLine.Exit 0] := by
  refine ⟨by decide, by decide, by decide⟩

/-- C6 (amended): every stream returned by `execute` ends with exactly one
`Exit` event preceded only by `Stdout` events; PTY-allocation and spawn
failures yield the single event `Exit(-1)`, a `wait` failure appends
`Exit(-1)` after the streamed output, and on normal termination the stream
is the read loop's events, then the end-of-loop flush — which emits the
remaining buffered bytes as one output event iff they are non-empty valid
UTF-8 and silently discards them otherwise — then the single
`Exit(code)`. -/
theorem c6_stream_contract :
    execute ExecSetup.ptyFail = [OutputLine.Exit (-1)] ∧
    execute ExecSetup.spawnFail = [OutputLine.Exit (-1)] ∧
    (∀ reads code, execute (ExecSetup.run reads (some code)) =
      (readLoop reads []).1 ++ finalFlush (readLoop reads []).2 ++ [OutputLine.Exit code]) ∧
    (∀ reads, execute (ExecSetup.run reads none) =
      (readLoop reads []).1 ++ finalFlush (readLoop reads []).2 ++ [OutputLine.Exit (-1)]) ∧
    (∀ s, ∃ pre code, execute s = pre ++ [OutputLine.Exit code] ∧
      pre.all isStdoutEv = true) := by
  have hrun : ∀ reads code, execute (ExecSetup.run reads (some code)) =
      (readLoop reads []).1 ++ finalFlush (readLoop reads []).2 ++ [OutputLine.Exit code] := by
    intro reads code
    rcases hr : readLoop reads [] with ⟨evs, buf⟩
    simp [execute, execute_blocking, hr]
  have hnone : ∀ reads, execute (ExecSetup.run reads none) =
      (readLoop reads []).1 ++ finalFlush (readLoop reads []).2 ++ [OutputLine.Exit (-1)] := by
    intro reads
    rcases hr : readLoop reads [] with ⟨evs, buf⟩
    simp [execute, execute_blocking, hr]
  refine ⟨rfl, rfl, hrun, hnone, fun s => ?_⟩
  cases s with
  | ptyFail => exact ⟨[], -1, rfl, rfl⟩
  | spawnFail => exact ⟨[], -1, rfl, rfl⟩
  | run reads waitCode =>
    have hall : ((readLoop reads []).1 ++ finalFlush (readLoop reads []).2).all
        isStdoutEv = true := by
      rw [List.all_append, readLoop_stdout, finalFlush_stdout]
      rfl
    cases waitCode with
    | some code =>
      exact ⟨(readLoop reads []).1 ++ finalFlush (readLoop reads []).2, code,
        by rw [hrun reads code, List.append_assoc], hall⟩
    | none =>
      exact ⟨(readLoop reads []).1 ++ finalFlush (readLoop reads []).2, -1,
        by rw [hnone reads, List.append_assoc], hall⟩

/-- C8: `select_block` is exclusive and idempotent on a manager whose block
ids are duplicate-free and contain `a` and `b`: after `select_block b` then
`select_block a`, a block is selected iff its id is `a`, `selected_block`
is `a`, and selecting `a` again leaves the manager unchanged. -/
theorem c8_select_block (m : BlockManager) (a b : Nat)
    (hnd : (m.blocks.map (fun blk => blk.id)).Nodup)
    (ha : a ∈ m.blocks.map (fun blk => blk.id))
    (hb : b ∈ m.blocks.map (fun blk => blk.id)) :
    (∀ blk ∈ ((m.select_block b).select_block a).blocks,
      blk.is_selected = true ↔ blk.id = a) ∧
    ((m.select_block b).select_block a).selected_block = some a ∧
    ((m.select_block b).select_block a).select_block a =
      (m.select_block b).select_block a := by
  have hmB := select_block_mem m b hb
  have hidsB : (m.select_block b).blocks.map (fun blk => blk.id) =
      m.blocks.map (fun blk => blk.id) := by
    rw [hmB]
    rw [map_modifyFirst (fun blk => blk.set_selected true) (fun blk => blk.id)
      (fun blk => rfl)]
    exact ids_map_deselect m.blocks
  have haB : a ∈ (m.select_block b).blocks.map (fun blk => blk.id) := by
    rw [hidsB]; exact ha
  have hndB : ((m.select_block b).blocks.map (fun blk => blk.id)).Nodup := by
    rw [hidsB]; exact hnd
  have hm1 := select_block_mem (m.select_block b) a haB
  refine ⟨?_, ?_, ?_⟩
  · rw [hm1]
    exact select_spec a (m.select_block b).blocks hndB haB
  · rw [hm1]
  · have hids1 : ((m.select_block b).select_block a).blocks.map (fun blk => blk.id) =
        m.blocks.map (fun blk => blk.id) := by
      rw [hm1]
      rw [map_modifyFirst (fun blk => blk.set_selected true) (fun blk => blk.id)
        (fun blk => rfl)]
      rw [ids_map_deselect]
      exact hidsB
    have ha1 : a ∈ ((m.select_block b).select_block a).blocks.map (fun blk => blk.id) := by
      rw [hids1]; exact ha
    have hm2 := select_block_mem ((m.select_block b).select_block a) a ha1
    rw [hm2]
    have hdesel : ((m.select_block b).select_block a).blocks.map
        (fun blk => blk.set_selected false) =
        (m.select_block b).blocks.map (fun blk => blk.set_selected false) := by
      rw [hm1]
      rw [map_modifyFirst (fun blk => blk.set_selected true)
        (fun blk => blk.set_selected false) (fun blk => rfl)]
      exact map_deselect_deselect (m.select_block b).blocks
    rw [hdesel, hm1]

/-- C8 (witness): the theorem applied to the concrete two-block manager
`c8Manager` with a = 1, b = 2. -/
theorem c8_witness :
    ((c8Manager.select_block 2).select_block 1).selected_block = some 1 ∧
    ((c8Manager.select_block 2).select_block 1).select_block 1 =
      (c8Manager.select_block 2).select_block 1 := by
  have h := c8_select_block c8Manager 1 2 (by decide) (by decide) (by decide)
  exact ⟨h.2.1, h.2.2⟩

/-- C7 (witness): the amended theorem applied to `c7Manager` and the absent
id 2. -/
theorem c7_witness :
    c7Manager.get_block 2 = none ∧
    (c7Manager.get_block_mut 2 = none ∧
      c7Manager.remove_block 2 = (none, c7Manager) ∧
      c7Manager.toggle_block_collapsed 2 = c7Manager ∧
      c7Manager.copy_block_command 2 = none ∧
      c7Manager.copy_block_output 2 = none ∧
      c7Manager.copy_block_full 2 = none ∧
      c7Manager.duplicate_block_for_edit 2 99 0 = (none, c7Manager) ∧
      c7Manager.select_block 2 =
        { blocks := c7Manager.blocks.map (fun b => b.set_selected false)
          selected_block := c7Manager.selected_block }) :=
  ⟨by decide, c7_missing_id c7Manager 2 99 0 (by decide)⟩

end Immaterium
